import Mathlib

set_option linter.unusedSectionVars false

/-
Shallow embedding of `crates/constraint_graph/src/builder.rs`: the
`ConstraintGraphBuilder` structure and its construction operations
(`make_domain`, `make_value_node`, `make_edge`, `make_all_aggregator`,
`make_any_aggregator`, `make_in_aggregator`), plus `build`.

The builder source is translated line by line.  Supporting types that live
in other files of the crate (dense_map.rs, types.rs, error.rs), which are
not among the available sources, are modelled from the spec:
  - `DenseMap` (spec 4.1) is an append-only list whose ids are list
    indices: `push` appends and returns the index, `get` is positional
    lookup, `contains_key i` is `i < length`.
  - `Node` (spec 3) holds a node type, domain ids and ordered pred/succ
    edge-id lists; a freshly constructed node has empty pred/succ lists.
  - `GraphError` (spec 7) has the five construction error kinds.
  - Hash maps are modelled as association lists with first-match lookup;
    the builder only ever inserts a key that is absent, so prepending is
    a faithful insert.
Mutating Rust methods (`&mut self -> Result<T, E>`) become Lean functions
`Builder -> Except GraphError T x Builder`: the returned state is the
state of the builder after the call, whether or not the call failed.
-/

namespace ConstraintGraph

/-- Edge strength (spec 3): strong edges are mandatory, weak are advisory. -/
inductive Strength where
  | weak
  | strong
  deriving DecidableEq

/-- Edge relation (spec 3): predecessor truth supports or opposes successor truth. -/
inductive Relation where
  | positive
  | negative
  deriving DecidableEq

/-- Modelled from the spec: the construction-time error kinds of spec
section 7 (error.rs is not among the sources). -/
inductive GraphError where
  | domainNotFound
  | nodeNotFound
  | conflictingEdgeCreated
  | noInAggregatorValues
  | malformedGraph (reason : String)
  deriving DecidableEq

instance instDecidableEqExcept {E A : Type} [DecidableEq E] [DecidableEq A] :
    DecidableEq (Except E A) := fun x y =>
  match x, y with
  | .ok a, .ok b =>
      if h : a = b then .isTrue (by rw [h])
      else .isFalse (fun hc => h (by cases hc; rfl))
  | .error a, .error b =>
      if h : a = b then .isTrue (by rw [h])
      else .isFalse (fun hc => h (by cases hc; rfl))
  | .ok a, .error b => .isFalse (fun hc => by cases hc)
  | .error a, .ok b => .isFalse (fun hc => by cases hc)

/-- Node kinds: a value node, the ALL/ANY aggregators, and the IN
aggregator holding its (deduplicated) member value set.  `NV` is the
`NodeValue<V>` type, `V` the member value type of IN aggregators. -/
inductive NodeType (V NV : Type) where
  | value (v : NV)
  | allAggregator
  | anyAggregator
  | inAggregator (vals : List V)
  deriving DecidableEq

/-- Modelled from the spec: `Node` (spec 3) — node type, domain ids, and
the ordered lists of incoming (`preds`) and outgoing (`succs`) edge ids. -/
structure Node (V NV : Type) where
  nodeType : NodeType V NV
  domainIds : List Nat
  preds : List Nat
  succs : List Nat
  deriving DecidableEq

/-- Modelled from the spec: `Node::new` builds a node with no edges yet. -/
def Node.new {V NV : Type} (nodeType : NodeType V NV) (domainIds : List Nat) : Node V NV :=
  { nodeType := nodeType, domainIds := domainIds, preds := [], succs := [] }

/-- A directed edge (spec 3): strength, relation and its endpoint node ids. -/
structure Edge where
  strength : Strength
  relation : Relation
  pred : Nat
  succ : Nat
  deriving DecidableEq

/-- A registered domain (spec 3): identifier and description. -/
structure DomainInfo (D : Type) where
  domain_identifier : D
  domain_description : String
  deriving DecidableEq

/-- First-match lookup in an association list (the model of FxHashMap). -/
def alookup {A B : Type} [DecidableEq A] (k : A) : List (A × B) → Option B
  | [] => none
  | (a, b) :: rest => if a = k then some b else alookup k rest

/-- The builder state (`ConstraintGraphBuilder` in builder.rs).  DenseMap
arenas are lists indexed by position; maps are association lists. -/
structure Builder (V NV M D : Type) where
  domain : List (DomainInfo D)
  nodes : List (Node V NV)
  edges : List Edge
  domain_identifier_map : List (D × Nat)
  value_map : List (NV × Nat)
  edges_map : List ((Nat × Nat) × Nat)
  node_info : List (Option String)
  node_metadata : List (Option M)
  deriving DecidableEq

/-- The frozen graph produced by `build` (the fields `build` moves). -/
structure Graph (V NV M D : Type) where
  domain : List (DomainInfo D)
  nodes : List (Node V NV)
  edges : List Edge
  value_map : List (NV × Nat)
  node_info : List (Option String)
  node_metadata : List (Option M)
  deriving DecidableEq

variable {V K NV M D : Type}

/-- `ConstraintGraphBuilder::new`: all arenas and maps start empty. -/
def Builder.new : Builder V NV M D :=
  { domain := [], nodes := [], edges := [], domain_identifier_map := [],
    value_map := [], edges_map := [], node_info := [], node_metadata := [] }

/-- `build`: moves the arenas into the immutable graph. -/
def build (b : Builder V NV M D) : Graph V NV M D :=
  { domain := b.domain, nodes := b.nodes, edges := b.edges,
    value_map := b.value_map, node_info := b.node_info,
    node_metadata := b.node_metadata }

/-- `make_domain` (builder.rs lines 55-76): return the existing id for a
known identifier, otherwise push a new `DomainInfo` and register it. -/
def make_domain [DecidableEq D] (b : Builder V NV M D) (domain_identifier : D)
    (domain_description : String) : Except GraphError Nat × Builder V NV M D :=
  match alookup domain_identifier b.domain_identifier_map with
  | some domain_id => (.ok domain_id, b)
  | none =>
      let domain_id := b.domain.length
      (.ok domain_id,
        { b with
            domain := b.domain ++
              [{ domain_identifier := domain_identifier,
                 domain_description := domain_description }],
            domain_identifier_map :=
              (domain_identifier, domain_id) :: b.domain_identifier_map })

/-- Resolution of a list of domain identifiers to domain ids, failing with
`DomainNotFound` on the first unregistered identifier (the `for` loops at
builder.rs lines 88-96, 171-179, 208-216, 254-262). -/
def resolveDomainIds [DecidableEq D] (m : List (D × Nat)) :
    List D → Except GraphError (List Nat)
  | [] => .ok []
  | i :: rest =>
      match alookup i m with
      | none => .error .domainNotFound
      | some d =>
          match resolveDomainIds m rest with
          | .error e => .error e
          | .ok ds => .ok (d :: ds)

/-- `make_value_node` (builder.rs lines 78-111): dedup lookup first; on a
hit return the existing id untouched, on a miss resolve domains, push the
node and its info/metadata slots, and register the value. -/
def make_value_node [DecidableEq NV] [DecidableEq D] (b : Builder V NV M D)
    (value : NV) (info : Option String) (domain_identifiers : List D)
    (metadata : Option M) : Except GraphError Nat × Builder V NV M D :=
  match alookup value b.value_map with
  | some node_id => (.ok node_id, b)
  | none =>
      match resolveDomainIds b.domain_identifier_map domain_identifiers with
      | .error e => (.error e, b)
      | .ok domain_ids =>
          let node_id := b.nodes.length
          (.ok node_id,
            { b with
                nodes := b.nodes ++ [Node.new (.value value) domain_ids],
                node_info := b.node_info ++ [info],
                node_metadata := b.node_metadata ++ [metadata],
                value_map := (value, node_id) :: b.value_map })

/-- `make_edge` (builder.rs lines 113-158): endpoints must exist; an
absent `(pred, succ)` pair allocates and wires a new edge, a present pair
is idempotent on equal strength/relation and a conflict otherwise. -/
def make_edge (b : Builder V NV M D) (pred_id succ_id : Nat)
    (strength : Strength) (relation : Relation) :
    Except GraphError Nat × Builder V NV M D :=
  if pred_id < b.nodes.length then
    if succ_id < b.nodes.length then
      match (alookup (pred_id, succ_id) b.edges_map).bind
          (fun edge_id => b.edges[edge_id]?.map (fun e => (edge_id, e))) with
      | some (edge_id, edge) =>
          if edge.strength = strength ∧ edge.relation = relation then
            (.ok edge_id, b)
          else
            (.error .conflictingEdgeCreated, b)
      | none =>
          let edge_id := b.edges.length
          let b1 := { b with
            edges := b.edges ++
              [({ strength := strength, relation := relation,
                  pred := pred_id, succ := succ_id } : Edge)],
            edges_map := ((pred_id, succ_id), edge_id) :: b.edges_map }
          match b1.nodes[pred_id]? with
          | none => (.error .nodeNotFound, b1)
          | some predN =>
              let b2 := { b1 with
                nodes := b1.nodes.set pred_id
                  { predN with succs := predN.succs ++ [edge_id] } }
              match b2.nodes[succ_id]? with
              | none => (.error .nodeNotFound, b2)
              | some succN =>
                  (.ok edge_id,
                    { b2 with
                        nodes := b2.nodes.set succ_id
                          { succN with preds := succN.preds ++ [edge_id] } })
    else (.error .nodeNotFound, b)
  else (.error .nodeNotFound, b)

/-- Member-node validation (`try_for_each` with `ensure_node_exists` at
builder.rs lines 167-169 and 204-206). -/
def validateNodes (b : Builder V NV M D) : List Nat → Except GraphError Unit
  | [] => .ok ()
  | n :: rest =>
      if n < b.nodes.length then validateNodes b rest else .error .nodeNotFound

/-- The edge-creation loop of `make_all_aggregator` (builder.rs lines
190-192), stopping at the first failing `make_edge`. -/
def allAggregatorEdges (agg : Nat) :
    Builder V NV M D → List (Nat × Relation × Strength) →
    Except GraphError Unit × Builder V NV M D
  | b, [] => (.ok (), b)
  | b, (node_id, relation, strength) :: rest =>
      match make_edge b node_id agg strength relation with
      | (.ok _, b1) => allAggregatorEdges agg b1 rest
      | (.error e, b1) => (.error e, b1)

/-- `make_all_aggregator` (builder.rs lines 160-195): validate members,
resolve domains, push the aggregator node and its info/metadata, then
create one edge per member into the aggregator. -/
def make_all_aggregator [DecidableEq D] (b : Builder V NV M D)
    (nodes : List (Nat × Relation × Strength)) (info : Option String)
    (metadata : Option M) (domain : List D) :
    Except GraphError Nat × Builder V NV M D :=
  match validateNodes b (nodes.map (fun t => t.1)) with
  | .error e => (.error e, b)
  | .ok _ =>
      match resolveDomainIds b.domain_identifier_map domain with
      | .error e => (.error e, b)
      | .ok domain_ids =>
          let aggregator_id := b.nodes.length
          let b1 := { b with
            nodes := b.nodes ++ [Node.new .allAggregator domain_ids],
            node_info := b.node_info ++ [info],
            node_metadata := b.node_metadata ++ [metadata] }
          match allAggregatorEdges aggregator_id b1 nodes with
          | (.error e, b2) => (.error e, b2)
          | (.ok _, b2) => (.ok aggregator_id, b2)

/-- The edge-creation loop of `make_any_aggregator` (builder.rs lines
227-229): every edge is created with `Strength::Strong`. -/
def anyAggregatorEdges (agg : Nat) :
    Builder V NV M D → List (Nat × Relation) →
    Except GraphError Unit × Builder V NV M D
  | b, [] => (.ok (), b)
  | b, (node_id, relation) :: rest =>
      match make_edge b node_id agg .strong relation with
      | (.ok _, b1) => anyAggregatorEdges agg b1 rest
      | (.error e, b1) => (.error e, b1)

/-- `make_any_aggregator` (builder.rs lines 197-232): like the ALL
aggregator but members carry no strength; edges are forced Strong. -/
def make_any_aggregator [DecidableEq D] (b : Builder V NV M D)
    (nodes : List (Nat × Relation)) (info : Option String)
    (metadata : Option M) (domain : List D) :
    Except GraphError Nat × Builder V NV M D :=
  match validateNodes b (nodes.map (fun t => t.1)) with
  | .error e => (.error e, b)
  | .ok _ =>
      match resolveDomainIds b.domain_identifier_map domain with
      | .error e => (.error e, b)
      | .ok domain_ids =>
          let aggregator_id := b.nodes.length
          let b1 := { b with
            nodes := b.nodes ++ [Node.new .anyAggregator domain_ids],
            node_info := b.node_info ++ [info],
            node_metadata := b.node_metadata ++ [metadata] }
          match anyAggregatorEdges aggregator_id b1 nodes with
          | (.error e, b2) => (.error e, b2)
          | (.ok _, b2) => (.ok aggregator_id, b2)

/-- `make_in_aggregator` (builder.rs lines 234-275): empty values are
`NoInAggregatorValues`; a value whose key differs from the first value
key is `MalformedGraph`; then domains are resolved and the node is pushed
with the deduplicated value set (`FxHashSet::from_iter`).  `getKey` is
the `ValueNode::get_key` method of `V`. -/
def make_in_aggregator [DecidableEq V] [DecidableEq K] [DecidableEq D]
    (getKey : V → K) (b : Builder V NV M D) (values : List V)
    (info : Option String) (metadata : Option M) (domain : List D) :
    Except GraphError Nat × Builder V NV M D :=
  match values with
  | [] => (.error .noInAggregatorValues, b)
  | v0 :: _ =>
      let key := getKey v0
      if values.all (fun val => getKey val = key) then
        match resolveDomainIds b.domain_identifier_map domain with
        | .error e => (.error e, b)
        | .ok domain_ids =>
            let node_id := b.nodes.length
            (.ok node_id,
              { b with
                  nodes := b.nodes ++
                    [Node.new (.inAggregator values.dedup) domain_ids],
                  node_info := b.node_info ++ [info],
                  node_metadata := b.node_metadata ++ [metadata] })
      else
        (.error (.malformedGraph "Values for In aggregator not of same key"), b)

/-- A builder construction call, for reasoning about arbitrary sequences
of operations against one builder. -/
inductive Op (V NV M D : Type) where
  | domainOp (ident : D) (desc : String)
  | valueOp (value : NV) (info : Option String) (domains : List D) (metadata : Option M)
  | edgeOp (pred succ : Nat) (strength : Strength) (relation : Relation)
  | allOp (members : List (Nat × Relation × Strength)) (info : Option String)
      (metadata : Option M) (domains : List D)
  | anyOp (members : List (Nat × Relation)) (info : Option String)
      (metadata : Option M) (domains : List D)
  | inOp (values : List V) (info : Option String) (metadata : Option M) (domains : List D)

/-- The state after one construction call (its result discarded): the
Rust methods mutate `self` in place whether or not they fail. -/
def applyOp [DecidableEq V] [DecidableEq K] [DecidableEq NV] [DecidableEq D]
    (getKey : V → K) (b : Builder V NV M D) : Op V NV M D → Builder V NV M D
  | .domainOp i desc => (make_domain b i desc).2
  | .valueOp v info doms md => (make_value_node b v info doms md).2
  | .edgeOp p s st r => (make_edge b p s st r).2
  | .allOp ms info md doms => (make_all_aggregator b ms info md doms).2
  | .anyOp ms info md doms => (make_any_aggregator b ms info md doms).2
  | .inOp vs info md doms => (make_in_aggregator getKey b vs info md doms).2

/-- The state after a sequence of construction calls. -/
def runOps [DecidableEq V] [DecidableEq K] [DecidableEq NV] [DecidableEq D]
    (getKey : V → K) : Builder V NV M D → List (Op V NV M D) → Builder V NV M D
  | b, [] => b
  | b, op :: rest => runOps getKey (applyOp getKey b op) rest

/-- A builder state reachable from `Builder.new` by construction calls. -/
def Reachable [DecidableEq V] [DecidableEq K] [DecidableEq NV] [DecidableEq D]
    (getKey : V → K) (b : Builder V NV M D) : Prop :=
  ∃ ops : List (Op V NV M D), runOps getKey Builder.new ops = b

/-- Count of value nodes carrying a given value, read off the node types. -/
def countValue [DecidableEq V] [DecidableEq NV] (nodes : List (Node V NV)) (nv : NV) : Nat :=
  (nodes.map Node.nodeType).countP (fun t => decide (t = NodeType.value nv))

/-- 1 when the dedup map has an entry, 0 otherwise. -/
def expectedCount {A : Type} : Option A → Nat
  | some _ => 1
  | none => 0

/-- The value-dedup invariant: the node arena holds exactly one value
node for each value registered in `value_map` and none for the rest. -/
def ValueMapConsistent [DecidableEq V] [DecidableEq NV] (b : Builder V NV M D) : Prop :=
  ∀ nv : NV, countValue b.nodes nv = expectedCount (alookup nv b.value_map)

/-- The arena-alignment invariant: nodes, node_info and node_metadata
always have the same number of entries. -/
def ArenasAligned (b : Builder V NV M D) : Prop :=
  b.nodes.length = b.node_info.length ∧ b.nodes.length = b.node_metadata.length

/-- Domain registrations survive from one state to a later one: map
entries and arena entries are never removed or overwritten. -/
def DomPreserved [DecidableEq D] (b b2 : Builder V NV M D) : Prop :=
  (∀ (i : D) (d : Nat), alookup i b.domain_identifier_map = some d →
    alookup i b2.domain_identifier_map = some d) ∧
  (∀ (d : Nat) (x : DomainInfo D), b.domain[d]? = some x → b2.domain[d]? = some x)

/-- `b2` extends `b` by edge insertions only: every field other than
`nodes`, `edges`, `edges_map` is untouched, node types are unchanged,
and every new edge satisfies `P`. -/
def ExtendsWith (P : Edge → Prop) (b b2 : Builder V NV M D) : Prop :=
  b2.domain = b.domain ∧
  b2.domain_identifier_map = b.domain_identifier_map ∧
  b2.value_map = b.value_map ∧
  b2.node_info = b.node_info ∧
  b2.node_metadata = b.node_metadata ∧
  b2.nodes.map Node.nodeType = b.nodes.map Node.nodeType ∧
  ∃ t, b2.edges = b.edges ++ t ∧ ∀ e ∈ t, P e

/-- Concrete builder states over `Nat` instances, used to evaluate the
operations on explicit inputs. -/
def eB0 : Builder Nat Nat Nat Nat := Builder.new

/-- The identity comparison key on `Nat` values. -/
def gkNat : Nat → Nat := fun v => v

/-- One value node for value `5` (node id 0). -/
def eB1 : Builder Nat Nat Nat Nat := (make_value_node eB0 5 none [] none).2

/-- An ALL aggregator over the same member listed twice with different
relations: the second member edge conflicts with the first. -/
def eAllConflict : Except GraphError Nat × Builder Nat Nat Nat Nat :=
  make_all_aggregator eB1 [(0, .positive, .strong), (0, .negative, .strong)] none none []

/-- An ANY aggregator with no members on top of `eB1` (node id 1). -/
def eB2 : Builder Nat Nat Nat Nat := (make_any_aggregator eB1 [] none none []).2

/-- A Weak edge wired directly into the ANY aggregator node by `make_edge`. -/
def eB3 : Builder Nat Nat Nat Nat := (make_edge eB2 0 1 .weak .positive).2

/-- A second value node for value `6` (node id 1) on top of `eB1`. -/
def eB4 : Builder Nat Nat Nat Nat := (make_value_node eB1 6 none [] none).2

/-- An edge 0 → 1 with Strong strength and Positive relation. -/
def eB5 : Builder Nat Nat Nat Nat := (make_edge eB4 0 1 .strong .positive).2

/-- One registered domain, identifier `3`, description descA. -/
def eB6 : Builder Nat Nat Nat Nat := (make_domain eB0 3 "descA").2

/-- An empty ALL aggregator on top of `eB1` (node id 1). -/
def eAll1 : Builder Nat Nat Nat Nat := (make_all_aggregator eB1 [] none none []).2

/-- A second empty ALL aggregator with identical arguments (node id 2). -/
def eAll2 : Builder Nat Nat Nat Nat := (make_all_aggregator eAll1 [] none none []).2

/-- A second empty ANY aggregator with identical arguments on top of `eB2`. -/
def eAny2 : Builder Nat Nat Nat Nat := (make_any_aggregator eB2 [] none none []).2

/-- An IN aggregator over the single value `4` (node id 0). -/
def eIn1 : Builder Nat Nat Nat Nat := (make_in_aggregator gkNat eB0 [4] none none []).2

/-- A second IN aggregator with identical arguments (node id 1). -/
def eIn2 : Builder Nat Nat Nat Nat := (make_in_aggregator gkNat eIn1 [4] none none []).2

/-- An ANY aggregator over the two value nodes of `eB4` (node id 2). -/
def eAny3 : Builder Nat Nat Nat Nat :=
  (make_any_aggregator eB4 [(0, .positive), (1, .negative)] none none []).2

/-- A concrete operation sequence: a value node, an IN aggregator, and
an ALL aggregator that fails on a conflicting duplicate member edge. -/
def eOps : List (Op Nat Nat Nat Nat) :=
  [Op.valueOp 5 none [] none, Op.inOp [4] none none [],
   Op.allOp [(0, .positive, .strong), (0, .negative, .strong)] none none []]

theorem alookup_cons {A B : Type} [DecidableEq A] (a k : A) (v : B) (m : List (A × B)) :
    alookup k ((a, v) :: m) = if a = k then some v else alookup k m := rfl

theorem mem_of_getElem?_some {A : Type} {l : List A} {n : Nat} {x : A}
    (h : l[n]? = some x) : x ∈ l := by
  obtain ⟨hlt, rfl⟩ := List.getElem?_eq_some.mp h
  exact List.getElem_mem ..

theorem getElem?_set_self_of_lt {A : Type} (l : List A) (n : Nat) (a : A)
    (h : n < l.length) : (l.set n a)[n]? = some a := by
  simp [List.getElem?_set_self', List.getElem?_eq_getElem h]

theorem alookup_cons_self {A B : Type} [DecidableEq A] (k : A) (v : B) (m : List (A × B)) :
    alookup k ((k, v) :: m) = some v := by simp [alookup]

theorem alookup_cons_ne {A B : Type} [DecidableEq A] {a k : A} (v : B) (m : List (A × B))
    (h : a ≠ k) : alookup k ((a, v) :: m) = alookup k m := by simp [alookup, h]

/-- Helper: replacing an entry by one with the same node type preserves
the list of node types. -/
theorem map_nodeType_set {V NV : Type} (l : List (Node V NV)) (i : Nat) (x y : Node V NV)
    (hx : l[i]? = some x) (hty : y.nodeType = x.nodeType) :
    (l.set i y).map Node.nodeType = l.map Node.nodeType := by
  induction l generalizing i with
  | nil => simp at hx
  | cons a t ih =>
      cases i with
      | zero =>
          simp only [List.getElem?_cons_zero, Option.some_inj] at hx
          simp [List.set, hty, hx]
      | succ n =>
          simp only [List.getElem?_cons_succ] at hx
          simp [List.set, ih n hx]

section Lemmas

variable [DecidableEq V] [DecidableEq K] [DecidableEq NV] [DecidableEq D]

/-- Characterization of the state after `make_edge`: all fields other
than `nodes`, `edges` and `edges_map` are untouched, node types are
preserved, and the edge arena at most gains one edge with the requested
strength, relation and endpoints. -/
theorem make_edge_state (b : Builder V NV M D) (p q : Nat) (st : Strength)
    (rel : Relation) :
    (make_edge b p q st rel).2.domain = b.domain ∧
    (make_edge b p q st rel).2.domain_identifier_map = b.domain_identifier_map ∧
    (make_edge b p q st rel).2.value_map = b.value_map ∧
    (make_edge b p q st rel).2.node_info = b.node_info ∧
    (make_edge b p q st rel).2.node_metadata = b.node_metadata ∧
    (make_edge b p q st rel).2.nodes.map Node.nodeType = b.nodes.map Node.nodeType ∧
    ∃ t, (make_edge b p q st rel).2.edges = b.edges ++ t ∧
      ∀ e ∈ t, e.strength = st ∧ e.relation = rel ∧ e.pred = p ∧ e.succ = q := by
  by_cases hp : p < b.nodes.length
  · by_cases hq : q < b.nodes.length
    · cases hm : (alookup (p, q) b.edges_map).bind
          (fun edge_id => b.edges[edge_id]?.map (fun e => (edge_id, e))) with
      | some pr =>
          have hstate : (make_edge b p q st rel).2 = b := by
            by_cases hsr : pr.2.strength = st ∧ pr.2.relation = rel
            · simp [make_edge, if_pos hp, if_pos hq, hm, if_pos hsr]
            · simp [make_edge, if_pos hp, if_pos hq, hm, if_neg hsr]
          rw [hstate]
          exact ⟨rfl, rfl, rfl, rfl, rfl, rfl, [], by simp, by simp⟩
      | none =>
          obtain ⟨predN, hpred⟩ : ∃ x, b.nodes[p]? = some x :=
            ⟨b.nodes[p], List.getElem?_eq_getElem hp⟩
          have hq2 : q < (b.nodes.set p
              { predN with succs := predN.succs ++ [b.edges.length] }).length := by
            simpa using hq
          obtain ⟨succN, hsucc⟩ : ∃ y, (b.nodes.set p
              { predN with succs := predN.succs ++ [b.edges.length] })[q]? = some y :=
            ⟨_, List.getElem?_eq_getElem hq2⟩
          have hstate : (make_edge b p q st rel).2 = { b with
              edges := b.edges ++
                [{ strength := st, relation := rel, pred := p, succ := q }],
              edges_map := ((p, q), b.edges.length) :: b.edges_map,
              nodes := (b.nodes.set p
                  { predN with succs := predN.succs ++ [b.edges.length] }).set q
                { succN with preds := succN.preds ++ [b.edges.length] } } := by
            simp [make_edge, if_pos hp, if_pos hq, hm, hpred, hsucc]
          rw [hstate]
          refine ⟨rfl, rfl, rfl, rfl, rfl, ?_,
            [{ strength := st, relation := rel, pred := p, succ := q }], rfl, by simp⟩
          have h1 : (b.nodes.set p
              { predN with succs := predN.succs ++ [b.edges.length] }).map Node.nodeType =
              b.nodes.map Node.nodeType := map_nodeType_set _ _ _ _ hpred rfl
          have h2 := map_nodeType_set
            (b.nodes.set p { predN with succs := predN.succs ++ [b.edges.length] })
            q _ { succN with preds := succN.preds ++ [b.edges.length] } hsucc rfl
          simpa [h1] using h2
    · have hstate : (make_edge b p q st rel).2 = b := by
        simp [make_edge, if_pos hp, if_neg hq]
      rw [hstate]
      exact ⟨rfl, rfl, rfl, rfl, rfl, rfl, [], by simp, by simp⟩
  · have hstate : (make_edge b p q st rel).2 = b := by
      simp [make_edge, if_neg hp]
    rw [hstate]
    exact ⟨rfl, rfl, rfl, rfl, rfl, rfl, [], by simp, by simp⟩

/-- `make_edge` preserves the length of the node arena. -/
theorem make_edge_nodes_length (b : Builder V NV M D) (p q : Nat) (st : Strength)
    (rel : Relation) :
    (make_edge b p q st rel).2.nodes.length = b.nodes.length := by
  have h := congrArg List.length (make_edge_state b p q st rel).2.2.2.2.2.1
  simpa using h

theorem extendsWith_refl (P : Edge → Prop) (b : Builder V NV M D) : ExtendsWith P b b :=
  ⟨rfl, rfl, rfl, rfl, rfl, rfl, [], by simp, by simp⟩

theorem extendsWith_trans {P : Edge → Prop} {b b1 b2 : Builder V NV M D}
    (h1 : ExtendsWith P b b1) (h2 : ExtendsWith P b1 b2) : ExtendsWith P b b2 := by
  obtain ⟨d1, m1, v1, i1, n1, t1, s1, hs1, hp1⟩ := h1
  obtain ⟨d2, m2, v2, i2, n2, t2, s2, hs2, hp2⟩ := h2
  refine ⟨d2.trans d1, m2.trans m1, v2.trans v1, i2.trans i1, n2.trans n1,
    t2.trans t1, s1 ++ s2, ?_, ?_⟩
  · rw [hs2, hs1, List.append_assoc]
  · intro e he
    rcases List.mem_append.mp he with h | h
    · exact hp1 e h
    · exact hp2 e h

theorem extendsWith_mono {P Q : Edge → Prop} {b b2 : Builder V NV M D}
    (hpq : ∀ e, P e → Q e) (h : ExtendsWith P b b2) : ExtendsWith Q b b2 := by
  obtain ⟨d1, m1, v1, i1, n1, t1, s1, hs1, hp1⟩ := h
  exact ⟨d1, m1, v1, i1, n1, t1, s1, hs1, fun e he => hpq e (hp1 e he)⟩

/-- Repackaging of `make_edge_state`. -/
theorem make_edge_extends (b : Builder V NV M D) (p q : Nat) (st : Strength)
    (rel : Relation) :
    ExtendsWith (fun e => e.strength = st ∧ e.relation = rel ∧ e.pred = p ∧ e.succ = q)
      b (make_edge b p q st rel).2 := by
  obtain ⟨h1, h2, h3, h4, h5, h6, t, ht, hP⟩ := make_edge_state b p q st rel
  exact ⟨h1, h2, h3, h4, h5, h6, t, ht, hP⟩

/-- The ALL-aggregator edge loop only adds edges into the aggregator. -/
theorem allAggregatorEdges_extends (agg : Nat)
    (ms : List (Nat × Relation × Strength)) (b : Builder V NV M D) :
    ExtendsWith (fun e => e.succ = agg) b (allAggregatorEdges agg b ms).2 := by
  induction ms generalizing b with
  | nil => exact extendsWith_refl _ _
  | cons hd tl ih =>
      obtain ⟨n, rel, st⟩ := hd
      have hme : ExtendsWith (fun e => e.succ = agg) b (make_edge b n agg st rel).2 :=
        extendsWith_mono (fun e he => he.2.2.2) (make_edge_extends b n agg st rel)
      cases hres : make_edge b n agg st rel with
      | mk res b1 =>
          rw [hres] at hme
          cases res with
          | ok v =>
              have hstep : allAggregatorEdges agg b ((n, rel, st) :: tl) =
                  allAggregatorEdges agg b1 tl := by
                simp [allAggregatorEdges, hres]
              rw [hstep]
              exact extendsWith_trans hme (ih b1)
          | error e =>
              have hstep : (allAggregatorEdges agg b ((n, rel, st) :: tl)).2 = b1 := by
                simp [allAggregatorEdges, hres]
              rw [hstep]
              exact hme

/-- The ANY-aggregator edge loop only adds Strong edges into the aggregator. -/
theorem anyAggregatorEdges_extends (agg : Nat)
    (ms : List (Nat × Relation)) (b : Builder V NV M D) :
    ExtendsWith (fun e => e.strength = .strong ∧ e.succ = agg) b
      (anyAggregatorEdges agg b ms).2 := by
  induction ms generalizing b with
  | nil => exact extendsWith_refl _ _
  | cons hd tl ih =>
      obtain ⟨n, rel⟩ := hd
      have hme : ExtendsWith (fun e => e.strength = Strength.strong ∧ e.succ = agg) b
          (make_edge b n agg .strong rel).2 :=
        extendsWith_mono (fun e he => ⟨he.1, he.2.2.2⟩) (make_edge_extends b n agg .strong rel)
      cases hres : make_edge b n agg .strong rel with
      | mk res b1 =>
          rw [hres] at hme
          cases res with
          | ok v =>
              have hstep : anyAggregatorEdges agg b ((n, rel) :: tl) =
                  anyAggregatorEdges agg b1 tl := by
                simp [anyAggregatorEdges, hres]
              rw [hstep]
              exact extendsWith_trans hme (ih b1)
          | error e =>
              have hstep : (anyAggregatorEdges agg b ((n, rel) :: tl)).2 = b1 := by
                simp [anyAggregatorEdges, hres]
              rw [hstep]
              exact hme

/-- The two possible outcomes of `make_domain` on the state. -/
theorem make_domain_state_cases (b : Builder V NV M D) (i : D) (desc : String) :
    (make_domain b i desc).2 = b ∨
    (alookup i b.domain_identifier_map = none ∧
      (make_domain b i desc).2 = { b with
        domain := b.domain ++ [{ domain_identifier := i, domain_description := desc }],
        domain_identifier_map := (i, b.domain.length) :: b.domain_identifier_map }) := by
  cases h : alookup i b.domain_identifier_map with
  | some d => left; simp [make_domain, h]
  | none => right; exact ⟨rfl, by simp [make_domain, h]⟩

/-- The two possible outcomes of `make_value_node` on the state. -/
theorem make_value_node_state_cases (b : Builder V NV M D) (v : NV)
    (info : Option String) (ids : List D) (md : Option M) :
    (make_value_node b v info ids md).2 = b ∨
    (alookup v b.value_map = none ∧ ∃ dids,
      (make_value_node b v info ids md).2 = { b with
        nodes := b.nodes ++ [Node.new (.value v) dids],
        node_info := b.node_info ++ [info],
        node_metadata := b.node_metadata ++ [md],
        value_map := (v, b.nodes.length) :: b.value_map }) := by
  cases h : alookup v b.value_map with
  | some nid => left; simp [make_value_node, h]
  | none =>
      cases hr : resolveDomainIds b.domain_identifier_map ids with
      | error e => left; simp [make_value_node, h, hr]
      | ok dids => right; exact ⟨rfl, dids, by simp [make_value_node, h, hr]⟩

/-- The two possible outcomes of `make_all_aggregator` on the state. -/
theorem make_all_state_cases (b : Builder V NV M D)
    (ms : List (Nat × Relation × Strength)) (info : Option String) (md : Option M)
    (doms : List D) :
    (make_all_aggregator b ms info md doms).2 = b ∨
    ∃ dids, ExtendsWith (fun e => e.succ = b.nodes.length)
      { b with
          nodes := b.nodes ++ [Node.new .allAggregator dids],
          node_info := b.node_info ++ [info],
          node_metadata := b.node_metadata ++ [md] }
      (make_all_aggregator b ms info md doms).2 := by
  cases hv : validateNodes b (ms.map (fun t => t.1)) with
  | error e => left; simp [make_all_aggregator, hv]
  | ok u =>
      cases hr : resolveDomainIds b.domain_identifier_map doms with
      | error e => left; simp [make_all_aggregator, hv, hr]
      | ok dids =>
          right
          refine ⟨dids, ?_⟩
          have hext := allAggregatorEdges_extends b.nodes.length ms
            { b with
                nodes := b.nodes ++ [Node.new .allAggregator dids],
                node_info := b.node_info ++ [info],
                node_metadata := b.node_metadata ++ [md] }
          have hstate : (make_all_aggregator b ms info md doms).2 =
              (allAggregatorEdges b.nodes.length
                { b with
                    nodes := b.nodes ++ [Node.new .allAggregator dids],
                    node_info := b.node_info ++ [info],
                    node_metadata := b.node_metadata ++ [md] } ms).2 := by
            simp only [make_all_aggregator, hv, hr]
            cases hloop : allAggregatorEdges b.nodes.length
              { b with
                  nodes := b.nodes ++ [Node.new .allAggregator dids],
                  node_info := b.node_info ++ [info],
                  node_metadata := b.node_metadata ++ [md] } ms with
            | mk res b2 => cases res <;> simp
          rw [hstate]
          exact hext

/-- The two possible outcomes of `make_any_aggregator` on the state. -/
theorem make_any_state_cases (b : Builder V NV M D)
    (ms : List (Nat × Relation)) (info : Option String) (md : Option M)
    (doms : List D) :
    (make_any_aggregator b ms info md doms).2 = b ∨
    ∃ dids, ExtendsWith (fun e => e.strength = .strong ∧ e.succ = b.nodes.length)
      { b with
          nodes := b.nodes ++ [Node.new .anyAggregator dids],
          node_info := b.node_info ++ [info],
          node_metadata := b.node_metadata ++ [md] }
      (make_any_aggregator b ms info md doms).2 := by
  cases hv : validateNodes b (ms.map (fun t => t.1)) with
  | error e => left; simp [make_any_aggregator, hv]
  | ok u =>
      cases hr : resolveDomainIds b.domain_identifier_map doms with
      | error e => left; simp [make_any_aggregator, hv, hr]
      | ok dids =>
          right
          refine ⟨dids, ?_⟩
          have hext := anyAggregatorEdges_extends b.nodes.length ms
            { b with
                nodes := b.nodes ++ [Node.new .anyAggregator dids],
                node_info := b.node_info ++ [info],
                node_metadata := b.node_metadata ++ [md] }
          have hstate : (make_any_aggregator b ms info md doms).2 =
              (anyAggregatorEdges b.nodes.length
                { b with
                    nodes := b.nodes ++ [Node.new .anyAggregator dids],
                    node_info := b.node_info ++ [info],
                    node_metadata := b.node_metadata ++ [md] } ms).2 := by
            simp only [make_any_aggregator, hv, hr]
            cases hloop : anyAggregatorEdges b.nodes.length
              { b with
                  nodes := b.nodes ++ [Node.new .anyAggregator dids],
                  node_info := b.node_info ++ [info],
                  node_metadata := b.node_metadata ++ [md] } ms with
            | mk res b2 => cases res <;> simp
          rw [hstate]
          exact hext

/-- The two possible outcomes of `make_in_aggregator` on the state. -/
theorem make_in_state_cases (gk : V → K) (b : Builder V NV M D) (vs : List V)
    (info : Option String) (md : Option M) (doms : List D) :
    (make_in_aggregator gk b vs info md doms).2 = b ∨
    ∃ dids, (make_in_aggregator gk b vs info md doms).2 = { b with
      nodes := b.nodes ++ [Node.new (.inAggregator vs.dedup) dids],
      node_info := b.node_info ++ [info],
      node_metadata := b.node_metadata ++ [md] } := by
  cases vs with
  | nil => left; simp [make_in_aggregator]
  | cons v0 rest =>
      by_cases hall : (v0 :: rest).all (fun val => gk val = gk v0)
      · cases hr : resolveDomainIds b.domain_identifier_map doms with
        | error e => left; simp [make_in_aggregator, hall, hr]
        | ok dids => right; exact ⟨dids, by simp [make_in_aggregator, hall, hr]⟩
      · left; simp [make_in_aggregator, hall]

theorem countValue_append_one (l : List (Node V NV)) (n : Node V NV) (nv : NV) :
    countValue (l ++ [n]) nv =
      countValue l nv + (if n.nodeType = NodeType.value nv then 1 else 0) := by
  simp [countValue, List.countP_append, List.countP_cons]

theorem countValue_map_eq {l l2 : List (Node V NV)}
    (h : l2.map Node.nodeType = l.map Node.nodeType) (nv : NV) :
    countValue l2 nv = countValue l nv := by
  simp [countValue, h]

theorem arenasAligned_push (b : Builder V NV M D) (nt : NodeType V NV)
    (dids : List Nat) (info : Option String) (md : Option M)
    (h : ArenasAligned b) :
    ArenasAligned { b with
      nodes := b.nodes ++ [Node.new nt dids],
      node_info := b.node_info ++ [info],
      node_metadata := b.node_metadata ++ [md] } := by
  obtain ⟨h1, h2⟩ := h
  constructor <;> (simp; omega)

theorem arenasAligned_extends {P : Edge → Prop} {b1 b2 : Builder V NV M D}
    (hext : ExtendsWith P b1 b2) (h : ArenasAligned b1) : ArenasAligned b2 := by
  obtain ⟨_, _, _, h4, h5, h6, _⟩ := hext
  obtain ⟨g1, g2⟩ := h
  have hlen : b2.nodes.length = b1.nodes.length := by
    have := congrArg List.length h6
    simpa using this
  exact ⟨by rw [hlen, h4, g1], by rw [hlen, h5, g2]⟩

theorem valueMapConsistent_push (b : Builder V NV M D) (nt : NodeType V NV)
    (dids : List Nat) (info : Option String) (md : Option M)
    (hnt : ∀ w : NV, nt ≠ .value w) (h : ValueMapConsistent b) :
    ValueMapConsistent { b with
      nodes := b.nodes ++ [Node.new nt dids],
      node_info := b.node_info ++ [info],
      node_metadata := b.node_metadata ++ [md] } := by
  intro nv
  show countValue (b.nodes ++ [Node.new nt dids]) nv = expectedCount (alookup nv b.value_map)
  rw [countValue_append_one]
  have hne := hnt nv
  simp only [Node.new, hne, if_false, Nat.add_zero]
  exact h nv

theorem valueMapConsistent_extends {P : Edge → Prop} {b1 b2 : Builder V NV M D}
    (hext : ExtendsWith P b1 b2) (h : ValueMapConsistent b1) : ValueMapConsistent b2 := by
  obtain ⟨_, _, h3, _, _, h6, _⟩ := hext
  intro nv
  rw [show countValue b2.nodes nv = countValue b1.nodes nv from countValue_map_eq h6 nv, h3]
  exact h nv

theorem domPreserved_refl (b : Builder V NV M D) : DomPreserved b b :=
  ⟨fun _ _ h => h, fun _ _ h => h⟩

theorem domPreserved_trans {b b1 b2 : Builder V NV M D}
    (h1 : DomPreserved b b1) (h2 : DomPreserved b1 b2) : DomPreserved b b2 :=
  ⟨fun i d h => h2.1 i d (h1.1 i d h), fun d x h => h2.2 d x (h1.2 d x h)⟩

theorem domPreserved_of_eqFields {b b2 : Builder V NV M D}
    (hd : b2.domain = b.domain) (hm : b2.domain_identifier_map = b.domain_identifier_map) :
    DomPreserved b b2 :=
  ⟨fun i d h => by rw [hm]; exact h, fun d x h => by rw [hd]; exact h⟩

/-- Every single construction call preserves registered domains. -/
theorem applyOp_domPreserved (gk : V → K) (b : Builder V NV M D) (op : Op V NV M D) :
    DomPreserved b (applyOp gk b op) := by
  cases op with
  | domainOp j desc =>
      show DomPreserved b (make_domain b j desc).2
      rcases make_domain_state_cases b j desc with he | ⟨hnone, he⟩
      · rw [he]; exact domPreserved_refl b
      · rw [he]
        constructor
        · intro i d hid
          have hne : j ≠ i := by
            intro hji
            rw [hji] at hnone
            rw [hnone] at hid
            exact Option.noConfusion hid
          rw [alookup_cons_ne _ _ hne]
          exact hid
        · intro d x hdx
          have hlt : d < b.domain.length := (List.getElem?_eq_some.mp hdx).1
          simpa [List.getElem?_append_left hlt] using hdx
  | valueOp v info ids md =>
      show DomPreserved b (make_value_node b v info ids md).2
      rcases make_value_node_state_cases b v info ids md with he | ⟨hnone, dids, he⟩
      · rw [he]; exact domPreserved_refl b
      · rw [he]; exact domPreserved_of_eqFields rfl rfl
  | edgeOp p q st rel =>
      show DomPreserved b (make_edge b p q st rel).2
      obtain ⟨h1, h2, _⟩ := make_edge_state b p q st rel
      exact domPreserved_of_eqFields h1 h2
  | allOp ms info md doms =>
      show DomPreserved b (make_all_aggregator b ms info md doms).2
      rcases make_all_state_cases b ms info md doms with he | ⟨dids, hext⟩
      · rw [he]; exact domPreserved_refl b
      · obtain ⟨h1, h2, _⟩ := hext
        exact domPreserved_of_eqFields h1 h2
  | anyOp ms info md doms =>
      show DomPreserved b (make_any_aggregator b ms info md doms).2
      rcases make_any_state_cases b ms info md doms with he | ⟨dids, hext⟩
      · rw [he]; exact domPreserved_refl b
      · obtain ⟨h1, h2, _⟩ := hext
        exact domPreserved_of_eqFields h1 h2
  | inOp vs info md doms =>
      show DomPreserved b (make_in_aggregator gk b vs info md doms).2
      rcases make_in_state_cases gk b vs info md doms with he | ⟨dids, he⟩
      · rw [he]; exact domPreserved_refl b
      · rw [he]; exact domPreserved_of_eqFields rfl rfl

/-- Every single construction call preserves arena alignment. -/
theorem applyOp_arenasAligned (gk : V → K) (b : Builder V NV M D) (op : Op V NV M D)
    (h : ArenasAligned b) : ArenasAligned (applyOp gk b op) := by
  cases op with
  | domainOp j desc =>
      show ArenasAligned (make_domain b j desc).2
      rcases make_domain_state_cases b j desc with he | ⟨hnone, he⟩
      · rwa [he]
      · rw [he]; exact h
  | valueOp v info ids md =>
      show ArenasAligned (make_value_node b v info ids md).2
      rcases make_value_node_state_cases b v info ids md with he | ⟨hnone, dids, he⟩
      · rwa [he]
      · rw [he]; exact arenasAligned_push b _ dids info md h
  | edgeOp p q st rel =>
      show ArenasAligned (make_edge b p q st rel).2
      exact arenasAligned_extends (make_edge_extends b p q st rel) h
  | allOp ms info md doms =>
      show ArenasAligned (make_all_aggregator b ms info md doms).2
      rcases make_all_state_cases b ms info md doms with he | ⟨dids, hext⟩
      · rwa [he]
      · exact arenasAligned_extends hext (arenasAligned_push b _ dids info md h)
  | anyOp ms info md doms =>
      show ArenasAligned (make_any_aggregator b ms info md doms).2
      rcases make_any_state_cases b ms info md doms with he | ⟨dids, hext⟩
      · rwa [he]
      · exact arenasAligned_extends hext (arenasAligned_push b _ dids info md h)
  | inOp vs info md doms =>
      show ArenasAligned (make_in_aggregator gk b vs info md doms).2
      rcases make_in_state_cases gk b vs info md doms with he | ⟨dids, he⟩
      · rwa [he]
      · rw [he]; exact arenasAligned_push b _ dids info md h

/-- Every single construction call preserves value-dedup consistency. -/
theorem applyOp_valueMapConsistent (gk : V → K) (b : Builder V NV M D)
    (op : Op V NV M D) (h : ValueMapConsistent b) :
    ValueMapConsistent (applyOp gk b op) := by
  cases op with
  | domainOp j desc =>
      show ValueMapConsistent (make_domain b j desc).2
      rcases make_domain_state_cases b j desc with he | ⟨hnone, he⟩
      · rwa [he]
      · rw [he]; exact h
  | valueOp v info ids md =>
      show ValueMapConsistent (make_value_node b v info ids md).2
      rcases make_value_node_state_cases b v info ids md with he | ⟨hnone, dids, he⟩
      · rwa [he]
      · rw [he]
        intro nv
        show countValue (b.nodes ++ [Node.new (.value v) dids]) nv =
          expectedCount (alookup nv ((v, b.nodes.length) :: b.value_map))
        rw [countValue_append_one]
        by_cases hv : v = nv
        · subst hv
          have h0 := h v
          rw [hnone] at h0
          simp only [expectedCount] at h0
          rw [alookup_cons_self]
          simp [Node.new, expectedCount, h0]
        · have hne : NodeType.value (V := V) v ≠ NodeType.value nv := by
            intro hc
            exact hv (by injection hc)
          rw [alookup_cons_ne _ _ hv]
          simp only [Node.new, hne, if_false, Nat.add_zero]
          exact h nv
  | edgeOp p q st rel =>
      show ValueMapConsistent (make_edge b p q st rel).2
      exact valueMapConsistent_extends (make_edge_extends b p q st rel) h
  | allOp ms info md doms =>
      show ValueMapConsistent (make_all_aggregator b ms info md doms).2
      rcases make_all_state_cases b ms info md doms with he | ⟨dids, hext⟩
      · rwa [he]
      · exact valueMapConsistent_extends hext
          (valueMapConsistent_push b _ dids info md (fun w hc => by cases hc) h)
  | anyOp ms info md doms =>
      show ValueMapConsistent (make_any_aggregator b ms info md doms).2
      rcases make_any_state_cases b ms info md doms with he | ⟨dids, hext⟩
      · rwa [he]
      · exact valueMapConsistent_extends hext
          (valueMapConsistent_push b _ dids info md (fun w hc => by cases hc) h)
  | inOp vs info md doms =>
      show ValueMapConsistent (make_in_aggregator gk b vs info md doms).2
      rcases make_in_state_cases gk b vs info md doms with he | ⟨dids, he⟩
      · rwa [he]
      · rw [he]
        exact valueMapConsistent_push b _ dids info md (fun w hc => by cases hc) h

theorem runOps_domPreserved (gk : V → K) (b : Builder V NV M D)
    (ops : List (Op V NV M D)) : DomPreserved b (runOps gk b ops) := by
  induction ops generalizing b with
  | nil => exact domPreserved_refl b
  | cons op rest ih =>
      exact domPreserved_trans (applyOp_domPreserved gk b op) (ih (applyOp gk b op))

theorem runOps_arenasAligned (gk : V → K) (b : Builder V NV M D)
    (ops : List (Op V NV M D)) (h : ArenasAligned b) :
    ArenasAligned (runOps gk b ops) := by
  induction ops generalizing b with
  | nil => exact h
  | cons op rest ih =>
      exact ih (applyOp gk b op) (applyOp_arenasAligned gk b op h)

theorem runOps_valueMapConsistent (gk : V → K) (b : Builder V NV M D)
    (ops : List (Op V NV M D)) (h : ValueMapConsistent b) :
    ValueMapConsistent (runOps gk b ops) := by
  induction ops generalizing b with
  | nil => exact h
  | cons op rest ih =>
      exact ih (applyOp gk b op) (applyOp_valueMapConsistent gk b op h)

theorem reachable_arenasAligned (gk : V → K) (b : Builder V NV M D)
    (h : Reachable gk b) : ArenasAligned b := by
  obtain ⟨ops, rfl⟩ := h
  exact runOps_arenasAligned gk Builder.new ops ⟨rfl, rfl⟩

theorem reachable_valueMapConsistent (gk : V → K) (b : Builder V NV M D)
    (h : Reachable gk b) : ValueMapConsistent b := by
  obtain ⟨ops, rfl⟩ := h
  refine runOps_valueMapConsistent gk Builder.new ops ?_
  intro nv
  rfl

/-- A successful `make_value_node` leaves the value registered at the
returned id in the dedup map. -/
theorem make_value_node_ok_lookup (b b2 : Builder V NV M D) (v : NV)
    (info : Option String) (ids : List D) (md : Option M) (id : Nat)
    (h : make_value_node b v info ids md = (.ok id, b2)) :
    alookup v b2.value_map = some id := by
  cases hl : alookup v b.value_map with
  | some nid =>
      have : ((Except.ok nid : Except GraphError Nat), b) = (Except.ok id, b2) := by
        rw [← h]; simp [make_value_node, hl]
      obtain ⟨h1, h2⟩ := Prod.mk.injEq .. ▸ this
      obtain rfl : nid = id := by injection h1
      rw [← h2]
      exact hl
  | none =>
      cases hr : resolveDomainIds b.domain_identifier_map ids with
      | error e => simp [make_value_node, hl, hr] at h
      | ok dids =>
          have : ((Except.ok b.nodes.length : Except GraphError Nat),
              ({ b with
                  nodes := b.nodes ++ [Node.new (.value v) dids],
                  node_info := b.node_info ++ [info],
                  node_metadata := b.node_metadata ++ [md],
                  value_map := (v, b.nodes.length) :: b.value_map } : Builder V NV M D)) =
              (Except.ok id, b2) := by
            rw [← h]; simp [make_value_node, hl, hr]
          obtain ⟨h1, h2⟩ := Prod.mk.injEq .. ▸ this
          obtain rfl : b.nodes.length = id := by injection h1
          rw [← h2]
          exact alookup_cons_self v b.nodes.length b.value_map

/-- `make_value_node` leaves the state untouched whenever it fails. -/
theorem make_value_node_error (b : Builder V NV M D) (v : NV)
    (info : Option String) (ids : List D) (md : Option M) (e : GraphError)
    (h : (make_value_node b v info ids md).1 = .error e) :
    (make_value_node b v info ids md).2 = b := by
  cases hl : alookup v b.value_map with
  | some nid => simp [make_value_node, hl]
  | none =>
      cases hr : resolveDomainIds b.domain_identifier_map ids with
      | error e2 => simp [make_value_node, hl, hr]
      | ok dids => simp [make_value_node, hl, hr] at h

/-- `make_edge` leaves the state untouched whenever it fails. -/
theorem make_edge_error (b : Builder V NV M D) (p q : Nat) (st : Strength)
    (rel : Relation) (e : GraphError)
    (h : (make_edge b p q st rel).1 = .error e) :
    (make_edge b p q st rel).2 = b := by
  by_cases hp : p < b.nodes.length
  · by_cases hq : q < b.nodes.length
    · cases hm : (alookup (p, q) b.edges_map).bind
          (fun edge_id => b.edges[edge_id]?.map (fun e => (edge_id, e))) with
      | some pr =>
          by_cases hsr : pr.2.strength = st ∧ pr.2.relation = rel
          · simp [make_edge, if_pos hp, if_pos hq, hm, if_pos hsr]
          · simp [make_edge, if_pos hp, if_pos hq, hm, if_neg hsr]
      | none =>
          obtain ⟨predN, hpred⟩ : ∃ x, b.nodes[p]? = some x :=
            ⟨b.nodes[p], List.getElem?_eq_getElem hp⟩
          have hq2 : q < (b.nodes.set p
              { predN with succs := predN.succs ++ [b.edges.length] }).length := by
            simpa using hq
          obtain ⟨succN, hsucc⟩ : ∃ y, (b.nodes.set p
              { predN with succs := predN.succs ++ [b.edges.length] })[q]? = some y :=
            ⟨_, List.getElem?_eq_getElem hq2⟩
          simp [make_edge, if_pos hp, if_pos hq, hm, hpred, hsucc] at h
    · simp [make_edge, if_pos hp, if_neg hq]
  · simp [make_edge, if_neg hp]

/-- `make_in_aggregator` leaves the state untouched whenever it fails. -/
theorem make_in_aggregator_error (gk : V → K) (b : Builder V NV M D) (vs : List V)
    (info : Option String) (md : Option M) (doms : List D) (e : GraphError)
    (h : (make_in_aggregator gk b vs info md doms).1 = .error e) :
    (make_in_aggregator gk b vs info md doms).2 = b := by
  cases vs with
  | nil => simp [make_in_aggregator]
  | cons v0 rest =>
      by_cases hall : (v0 :: rest).all (fun val => gk val = gk v0)
      · cases hr : resolveDomainIds b.domain_identifier_map doms with
        | error e2 => simp [make_in_aggregator, hall, hr]
        | ok dids => simp [make_in_aggregator, hall, hr] at h
      · simp [make_in_aggregator, hall]

/-- If some identifier in the list is unregistered, resolution fails
with `DomainNotFound`. -/
theorem resolveDomainIds_missing {m : List (D × Nat)} {ids : List D}
    (h : ∃ i ∈ ids, alookup i m = none) :
    resolveDomainIds m ids = .error .domainNotFound := by
  induction ids with
  | nil => simp at h
  | cons j rest ih =>
      obtain ⟨i, hi, hnone⟩ := h
      rcases List.mem_cons.mp hi with rfl | hmem
      · simp [resolveDomainIds, hnone]
      · cases hj : alookup j m with
        | none => simp [resolveDomainIds, hj]
        | some d =>
            rw [resolveDomainIds, hj, ih ⟨i, hmem, hnone⟩]

/-- Domain resolution only ever fails with `DomainNotFound`. -/
theorem resolveDomainIds_error_eq {m : List (D × Nat)} {ids : List D} {e : GraphError}
    (h : resolveDomainIds m ids = .error e) : e = .domainNotFound := by
  induction ids with
  | nil => simp [resolveDomainIds] at h
  | cons j rest ih =>
      cases hj : alookup j m with
      | none =>
          rw [resolveDomainIds, hj] at h
          injection h with h2
          exact h2.symm
      | some d =>
          rw [resolveDomainIds, hj] at h
          cases hr : resolveDomainIds m rest with
          | error e2 =>
              rw [hr] at h
              injection h with h2
              subst h2
              exact ih hr
          | ok ds => rw [hr] at h; cases h

/-- Shape of a successful `make_all_aggregator` call. -/
theorem make_all_ok_shape (b b2 : Builder V NV M D)
    (ms : List (Nat × Relation × Strength)) (info : Option String) (md : Option M)
    (doms : List D) (agg : Nat)
    (h : make_all_aggregator b ms info md doms = (.ok agg, b2)) :
    agg = b.nodes.length ∧ b2.nodes.length = b.nodes.length + 1 := by
  cases hv : validateNodes b (ms.map (fun t => t.1)) with
  | error e => simp [make_all_aggregator, hv] at h
  | ok u =>
      cases hr : resolveDomainIds b.domain_identifier_map doms with
      | error e => simp [make_all_aggregator, hv, hr] at h
      | ok dids =>
          cases hloop : allAggregatorEdges b.nodes.length
            { b with
                nodes := b.nodes ++ [Node.new .allAggregator dids],
                node_info := b.node_info ++ [info],
                node_metadata := b.node_metadata ++ [md] } ms with
          | mk res bl =>
              cases res with
              | error e => simp [make_all_aggregator, hv, hr, hloop] at h
              | ok u2 =>
                  have hh : (Except.ok (ε := GraphError) b.nodes.length, bl) =
                      (Except.ok agg, b2) := by
                    rw [← h]; simp [make_all_aggregator, hv, hr, hloop]
                  obtain ⟨h1, h2⟩ := Prod.mk.injEq .. ▸ hh
                  obtain rfl : b.nodes.length = agg := by injection h1
                  subst h2
                  have hext := allAggregatorEdges_extends b.nodes.length ms
                    { b with
                        nodes := b.nodes ++ [Node.new .allAggregator dids],
                        node_info := b.node_info ++ [info],
                        node_metadata := b.node_metadata ++ [md] }
                  rw [hloop] at hext
                  obtain ⟨_, _, _, _, _, h6, _⟩ := hext
                  have hlen := congrArg List.length h6
                  simp only [List.length_map] at hlen
                  constructor
                  · rfl
                  · rw [hlen]; simp

/-- Shape of a successful `make_any_aggregator` call: the returned id is
the freshly pushed node, and the edges gained are Strong into it. -/
theorem make_any_ok_shape (b b2 : Builder V NV M D)
    (ms : List (Nat × Relation)) (info : Option String) (md : Option M)
    (doms : List D) (agg : Nat)
    (h : make_any_aggregator b ms info md doms = (.ok agg, b2)) :
    agg = b.nodes.length ∧ b2.nodes.length = b.nodes.length + 1 ∧
    ∃ t, b2.edges = b.edges ++ t ∧
      ∀ e ∈ t, e.strength = .strong ∧ e.succ = agg := by
  cases hv : validateNodes b (ms.map (fun t => t.1)) with
  | error e => simp [make_any_aggregator, hv] at h
  | ok u =>
      cases hr : resolveDomainIds b.domain_identifier_map doms with
      | error e => simp [make_any_aggregator, hv, hr] at h
      | ok dids =>
          cases hloop : anyAggregatorEdges b.nodes.length
            { b with
                nodes := b.nodes ++ [Node.new .anyAggregator dids],
                node_info := b.node_info ++ [info],
                node_metadata := b.node_metadata ++ [md] } ms with
          | mk res bl =>
              cases res with
              | error e => simp [make_any_aggregator, hv, hr, hloop] at h
              | ok u2 =>
                  have hh : ((Except.ok b.nodes.length : Except GraphError Nat), bl) =
                      (Except.ok agg, b2) := by
                    rw [← h]; simp [make_any_aggregator, hv, hr, hloop]
                  obtain ⟨h1, h2⟩ := Prod.mk.injEq .. ▸ hh
                  obtain rfl : b.nodes.length = agg := by injection h1
                  subst h2
                  have hext := anyAggregatorEdges_extends b.nodes.length ms
                    { b with
                        nodes := b.nodes ++ [Node.new .anyAggregator dids],
                        node_info := b.node_info ++ [info],
                        node_metadata := b.node_metadata ++ [md] }
                  rw [hloop] at hext
                  obtain ⟨_, _, _, _, _, h6, t, ht, hP⟩ := hext
                  have hlen := congrArg List.length h6
                  simp only [List.length_map] at hlen
                  refine ⟨rfl, by rw [hlen]; simp, t, ?_, hP⟩
                  simpa using ht

/-- Shape of a successful `make_in_aggregator` call. -/
theorem make_in_ok_shape (gk : V → K) (b b2 : Builder V NV M D) (vs : List V)
    (info : Option String) (md : Option M) (doms : List D) (id : Nat)
    (h : make_in_aggregator gk b vs info md doms = (.ok id, b2)) :
    id = b.nodes.length ∧ ∃ dids, b2 = { b with
      nodes := b.nodes ++ [Node.new (.inAggregator vs.dedup) dids],
      node_info := b.node_info ++ [info],
      node_metadata := b.node_metadata ++ [md] } := by
  cases vs with
  | nil => simp [make_in_aggregator] at h
  | cons v0 rest =>
      by_cases hall : (v0 :: rest).all (fun val => gk val = gk v0)
      · cases hr : resolveDomainIds b.domain_identifier_map doms with
        | error e => simp [make_in_aggregator, hall, hr] at h
        | ok dids =>
            have hh : ((Except.ok b.nodes.length : Except GraphError Nat),
                ({ b with
                    nodes := b.nodes ++
                      [Node.new (.inAggregator (v0 :: rest).dedup) dids],
                    node_info := b.node_info ++ [info],
                    node_metadata := b.node_metadata ++ [md] } : Builder V NV M D)) =
                (Except.ok id, b2) := by
              rw [← h]; simp [make_in_aggregator, hall, hr]
            obtain ⟨h1, h2⟩ := Prod.mk.injEq .. ▸ hh
            obtain rfl : b.nodes.length = id := by injection h1
            exact ⟨rfl, dids, h2.symm⟩
      · simp [make_in_aggregator, hall] at h

/-- `make_all_aggregator` with a failing member validation or domain
resolution returns that error with the state untouched. -/
theorem make_all_validation_error (b : Builder V NV M D)
    (ms : List (Nat × Relation × Strength)) (info : Option String) (md : Option M)
    (doms : List D) (e : GraphError) :
    (validateNodes b (ms.map (fun t => t.1)) = .error e →
      make_all_aggregator b ms info md doms = (.error e, b)) ∧
    (∀ u, validateNodes b (ms.map (fun t => t.1)) = .ok u →
      resolveDomainIds b.domain_identifier_map doms = .error e →
      make_all_aggregator b ms info md doms = (.error e, b)) := by
  constructor
  · intro hv
    simp [make_all_aggregator, hv]
  · intro u hv hr
    simp [make_all_aggregator, hv, hr]

/-- `make_any_aggregator` with a failing member validation or domain
resolution returns that error with the state untouched. -/
theorem make_any_validation_error (b : Builder V NV M D)
    (ms : List (Nat × Relation)) (info : Option String) (md : Option M)
    (doms : List D) (e : GraphError) :
    (validateNodes b (ms.map (fun t => t.1)) = .error e →
      make_any_aggregator b ms info md doms = (.error e, b)) ∧
    (∀ u, validateNodes b (ms.map (fun t => t.1)) = .ok u →
      resolveDomainIds b.domain_identifier_map doms = .error e →
      make_any_aggregator b ms info md doms = (.error e, b)) := by
  constructor
  · intro hv
    simp [make_any_aggregator, hv]
  · intro u hv hr
    simp [make_any_aggregator, hv, hr]

end Lemmas

section Claims

variable [DecidableEq V] [DecidableEq K] [DecidableEq NV] [DecidableEq D]

/-- C2: for existing nodes `p`, `s`, calling `make_edge` when an edge for
the ordered pair `(p, s)` already exists returns the existing `EdgeId`
when the stored strength and relation both equal the requested ones and
the `ConflictingEdgeCreated` error when either differs; in both cases the
builder (and so the stored edge) is unchanged. -/
theorem make_edge_existing_pair_idempotent_or_conflict
    (b : Builder V NV M D) (p q eid : Nat) (e : Edge) (st : Strength) (rel : Relation)
    (hp : p < b.nodes.length) (hq : q < b.nodes.length)
    (hm : alookup (p, q) b.edges_map = some eid)
    (he : b.edges[eid]? = some e) :
    (e.strength = st ∧ e.relation = rel → make_edge b p q st rel = (.ok eid, b)) ∧
    (¬(e.strength = st ∧ e.relation = rel) →
      make_edge b p q st rel = (.error .conflictingEdgeCreated, b)) := by
  have hbind : (alookup (p, q) b.edges_map).bind
      (fun edge_id => b.edges[edge_id]?.map (fun e2 => (edge_id, e2))) = some (eid, e) := by
    simp [hm, he]
  constructor
  · intro hsr
    simp [make_edge, if_pos hp, if_pos hq, hbind, if_pos hsr]
  · intro hsr
    simp [make_edge, if_pos hp, if_pos hq, hbind, if_neg hsr]

/-- C2 witness: on the concrete builder `eB5` the stored edge `(0, 1)` is
Strong/Positive; re-creating it is idempotent and a Weak re-creation
conflicts, both without touching the builder. -/
theorem make_edge_existing_pair_idempotent_or_conflict_witness :
    make_edge eB5 0 1 .strong .positive = (.ok 0, eB5) ∧
    make_edge eB5 0 1 .weak .positive = (.error .conflictingEdgeCreated, eB5) := by
  constructor
  · exact (make_edge_existing_pair_idempotent_or_conflict eB5 0 1 0
      { strength := .strong, relation := .positive, pred := 0, succ := 1 }
      .strong .positive (by decide) (by decide) (by decide) (by decide)).1 (by decide)
  · exact (make_edge_existing_pair_idempotent_or_conflict eB5 0 1 0
      { strength := .strong, relation := .positive, pred := 0, succ := 1 }
      .weak .positive (by decide) (by decide) (by decide) (by decide)).2 (by decide)

/-- C10: for an existing node `n` with no prior `(n, n)` edge,
`make_edge n n` succeeds and the new edge id ends up in both the preds
and the succs list of `n` — self-loops are accepted, no cycle check
rejects the edge. -/
theorem make_edge_self_loop_accepted (b : Builder V NV M D) (n : Nat)
    (node : Node V NV) (st : Strength) (rel : Relation)
    (hn : b.nodes[n]? = some node)
    (habsent : alookup (n, n) b.edges_map = none) :
    ∃ b2, make_edge b n n st rel = (.ok b.edges.length, b2) ∧
      ∃ node2, b2.nodes[n]? = some node2 ∧
        b.edges.length ∈ node2.preds ∧ b.edges.length ∈ node2.succs := by
  have hlt : n < b.nodes.length := (List.getElem?_eq_some.mp hn).1
  have hbind : (alookup (n, n) b.edges_map).bind
      (fun edge_id => b.edges[edge_id]?.map (fun e => (edge_id, e))) = none := by
    simp [habsent]
  have hset1 : (b.nodes.set n { node with succs := node.succs ++ [b.edges.length] })[n]? =
      some { node with succs := node.succs ++ [b.edges.length] } :=
    getElem?_set_self_of_lt _ _ _ hlt
  have hstate : make_edge b n n st rel = (.ok b.edges.length,
      { b with
          edges := b.edges ++ [{ strength := st, relation := rel, pred := n, succ := n }],
          edges_map := ((n, n), b.edges.length) :: b.edges_map,
          nodes := (b.nodes.set n { node with succs := node.succs ++ [b.edges.length] }).set n
            { node with preds := node.preds ++ [b.edges.length],
                        succs := node.succs ++ [b.edges.length] } }) := by
    simp [make_edge, if_pos hlt, hbind, hn, hset1]
  refine ⟨_, hstate,
    { node with preds := node.preds ++ [b.edges.length],
                succs := node.succs ++ [b.edges.length] }, ?_, by simp, by simp⟩
  have hlen : n < (b.nodes.set n
      { node with succs := node.succs ++ [b.edges.length] }).length := by
    simpa using hlt
  exact getElem?_set_self_of_lt _ _ _ hlen

/-- C10 witness: the self-loop on node 0 of `eB1` succeeds and edge 0
lands in both lists of node 0. -/
theorem make_edge_self_loop_accepted_witness :
    ∃ b2, make_edge eB1 0 0 .strong .positive = (.ok eB1.edges.length, b2) ∧
      ∃ node2, b2.nodes[0]? = some node2 ∧
        eB1.edges.length ∈ node2.preds ∧ eB1.edges.length ∈ node2.succs :=
  make_edge_self_loop_accepted eB1 0
    { nodeType := .value 5, domainIds := [], preds := [], succs := [] }
    .strong .positive (by decide) (by decide)

/-- C7: `make_domain` never fails; the first registration of an
identifier allocates a fresh id, and after any further construction
calls a later `make_domain` with the same identifier returns that same
id without touching the builder, the stored description still being the
first one. -/
theorem make_domain_first_registration_wins
    (gk : V → K) (b b1 : Builder V NV M D) (i : D) (descA descB : String) (d : Nat)
    (ops : List (Op V NV M D))
    (h0 : alookup i b.domain_identifier_map = none)
    (h1 : make_domain b i descA = (.ok d, b1)) :
    (∀ (bx : Builder V NV M D) (j : D) (desc : String),
      ∃ dx, (make_domain bx j desc).1 = .ok dx) ∧
    b.domain[d]? = none ∧
    make_domain (runOps gk b1 ops) i descB = (.ok d, runOps gk b1 ops) ∧
    (runOps gk b1 ops).domain[d]? =
      some { domain_identifier := i, domain_description := descA } := by
  have hh : ((Except.ok b.domain.length : Except GraphError Nat),
      ({ b with
          domain := b.domain ++
            [{ domain_identifier := i, domain_description := descA }],
          domain_identifier_map :=
            (i, b.domain.length) :: b.domain_identifier_map } : Builder V NV M D)) =
      (.ok d, b1) := by
    rw [← h1]; simp [make_domain, h0]
  obtain ⟨hd, hb1⟩ := Prod.mk.injEq .. ▸ hh
  obtain rfl : b.domain.length = d := by injection hd
  have hmap1 : alookup i b1.domain_identifier_map = some b.domain.length := by
    rw [← hb1]
    exact alookup_cons_self i b.domain.length b.domain_identifier_map
  have harena1 : b1.domain[b.domain.length]? =
      some { domain_identifier := i, domain_description := descA } := by
    rw [← hb1]
    show (b.domain ++ [{ domain_identifier := i, domain_description := descA }])[
      b.domain.length]? = _
    rw [List.getElem?_append_right (Nat.le_refl _)]
    simp
  have hpres := runOps_domPreserved gk b1 ops
  refine ⟨?_, List.getElem?_eq_none_iff.mpr (Nat.le_refl _),
    by simp [make_domain, hpres.1 i _ hmap1], hpres.2 _ _ harena1⟩
  intro bx j desc
  cases hj : alookup j bx.domain_identifier_map with
  | some dx => exact ⟨dx, by simp [make_domain, hj]⟩
  | none => exact ⟨bx.domain.length, by simp [make_domain, hj]⟩

/-- C7 witness: registering identifier 3 as descA, then a value node,
then re-registering with descB yields id 0 again, with descA stored. -/
theorem make_domain_first_registration_wins_witness :
    (∀ (bx : Builder Nat Nat Nat Nat) (j : Nat) (desc : String),
      ∃ dx, (make_domain bx j desc).1 = .ok dx) ∧
    eB0.domain[0]? = none ∧
    make_domain (runOps gkNat eB6 [Op.valueOp 5 none [] none]) 3 "descB" =
      (.ok 0, runOps gkNat eB6 [Op.valueOp 5 none [] none]) ∧
    (runOps gkNat eB6 [Op.valueOp 5 none [] none]).domain[0]? =
      some { domain_identifier := 3, domain_description := "descA" } :=
  make_domain_first_registration_wins gkNat eB0 eB6 3 "descA" "descB" 0
    [Op.valueOp 5 none [] none] (by decide) (by decide)

/-- C9: repeating `make_all_aggregator`, `make_any_aggregator` or
`make_in_aggregator` with identical arguments never deduplicates: each
successful call returns a fresh node id, distinct from the previous one
and absent from the node arena it was called on. -/
theorem aggregators_never_deduplicated
    (gk : V → K) (bA bA1 bA2 bB bB1 bB2 bC bC1 bC2 : Builder V NV M D)
    (idA1 idA2 idB1 idB2 idC1 idC2 : Nat)
    (msA : List (Nat × Relation × Strength)) (msB : List (Nat × Relation))
    (vsC : List V) (info : Option String) (md : Option M) (doms : List D) :
    (make_all_aggregator bA msA info md doms = (.ok idA1, bA1) →
      make_all_aggregator bA1 msA info md doms = (.ok idA2, bA2) →
      idA1 ≠ idA2 ∧ bA.nodes[idA1]? = none ∧ bA1.nodes[idA2]? = none) ∧
    (make_any_aggregator bB msB info md doms = (.ok idB1, bB1) →
      make_any_aggregator bB1 msB info md doms = (.ok idB2, bB2) →
      idB1 ≠ idB2 ∧ bB.nodes[idB1]? = none ∧ bB1.nodes[idB2]? = none) ∧
    (make_in_aggregator gk bC vsC info md doms = (.ok idC1, bC1) →
      make_in_aggregator gk bC1 vsC info md doms = (.ok idC2, bC2) →
      idC1 ≠ idC2 ∧ bC.nodes[idC1]? = none ∧ bC1.nodes[idC2]? = none) := by
  refine ⟨?_, ?_, ?_⟩
  · intro h1 h2
    obtain ⟨hid1, hlen1⟩ := make_all_ok_shape bA bA1 msA info md doms idA1 h1
    obtain ⟨hid2, hlen2⟩ := make_all_ok_shape bA1 bA2 msA info md doms idA2 h2
    subst hid1
    subst hid2
    exact ⟨by omega, List.getElem?_eq_none_iff.mpr (Nat.le_refl _),
      List.getElem?_eq_none_iff.mpr (Nat.le_refl _)⟩
  · intro h1 h2
    obtain ⟨hid1, hlen1, -⟩ := make_any_ok_shape bB bB1 msB info md doms idB1 h1
    obtain ⟨hid2, hlen2, -⟩ := make_any_ok_shape bB1 bB2 msB info md doms idB2 h2
    subst hid1
    subst hid2
    exact ⟨by omega, List.getElem?_eq_none_iff.mpr (Nat.le_refl _),
      List.getElem?_eq_none_iff.mpr (Nat.le_refl _)⟩
  · intro h1 h2
    obtain ⟨hid1, dids1, hb1⟩ := make_in_ok_shape gk bC bC1 vsC info md doms idC1 h1
    obtain ⟨hid2, dids2, hb2⟩ := make_in_ok_shape gk bC1 bC2 vsC info md doms idC2 h2
    have hlen1 : bC1.nodes.length = bC.nodes.length + 1 := by rw [hb1]; simp
    subst hid1
    subst hid2
    exact ⟨by omega, List.getElem?_eq_none_iff.mpr (Nat.le_refl _),
      List.getElem?_eq_none_iff.mpr (Nat.le_refl _)⟩

/-- C9 witness: repeating each aggregator constructor with identical
arguments on the concrete builders yields distinct fresh ids. -/
theorem aggregators_never_deduplicated_witness :
    ((1 : Nat) ≠ 2 ∧ eB1.nodes[1]? = none ∧ eAll1.nodes[2]? = none) ∧
    ((1 : Nat) ≠ 2 ∧ eB1.nodes[1]? = none ∧ eB2.nodes[2]? = none) ∧
    ((0 : Nat) ≠ 1 ∧ eB0.nodes[0]? = none ∧ eIn1.nodes[1]? = none) := by
  refine ⟨?_, ?_, ?_⟩
  · exact (aggregators_never_deduplicated gkNat eB1 eAll1 eAll2 eB1 eB2 eAny2
      eB0 eIn1 eIn2 1 2 1 2 0 1 [] [] [4] none none []).1 (by decide) (by decide)
  · exact (aggregators_never_deduplicated gkNat eB1 eAll1 eAll2 eB1 eB2 eAny2
      eB0 eIn1 eIn2 1 2 1 2 0 1 [] [] [4] none none []).2.1 (by decide) (by decide)
  · exact (aggregators_never_deduplicated gkNat eB1 eAll1 eAll2 eB1 eB2 eAny2
      eB0 eIn1 eIn2 1 2 1 2 0 1 [] [] [4] none none []).2.2 (by decide) (by decide)

/-- C8: after any sequence of builder operations, successful or failed,
the nodes, node_info and node_metadata arenas have the same number of
entries, so every node id indexes a valid info slot and metadata slot. -/
theorem builder_arenas_aligned (gk : V → K) (ops : List (Op V NV M D)) :
    (runOps gk Builder.new ops).nodes.length =
      (runOps gk Builder.new ops).node_info.length ∧
    (runOps gk Builder.new ops).nodes.length =
      (runOps gk Builder.new ops).node_metadata.length ∧
    ∀ id : Nat, id < (runOps gk Builder.new ops).nodes.length →
      ((runOps gk Builder.new ops).node_info[id]?).isSome = true ∧
      ((runOps gk Builder.new ops).node_metadata[id]?).isSome = true := by
  obtain ⟨h1, h2⟩ := runOps_arenasAligned gk Builder.new ops ⟨rfl, rfl⟩
  refine ⟨h1, h2, fun id hid => ⟨?_, ?_⟩⟩
  · rw [List.getElem?_eq_getElem (h1 ▸ hid)]; rfl
  · rw [List.getElem?_eq_getElem (h2 ▸ hid)]; rfl

/-- C8 witness: a run with a value node, an IN aggregator and a failed
ALL aggregator keeps the three arenas aligned (three entries each). -/
theorem builder_arenas_aligned_witness :
    (runOps gkNat Builder.new eOps).nodes.length =
      (runOps gkNat Builder.new eOps).node_info.length ∧
    ((runOps gkNat Builder.new eOps).node_metadata[2]?).isSome = true := by
  have h := builder_arenas_aligned gkNat eOps
  exact ⟨h.1, (h.2.2 2 (by decide)).2⟩

/-- C3: starting from any reachable builder, two consecutive successful
`make_value_node` calls with the same value return the same node id, the
second call changes nothing (its info, metadata and domain arguments are
ignored), and the node arena holds exactly one value node for that
value. -/
theorem value_node_dedup_idempotent (gk : V → K) (b b1 b2 : Builder V NV M D)
    (v : NV) (i1 i2 : Option String) (d1 d2 : List D) (m1 m2 : Option M)
    (id1 id2 : Nat)
    (hreach : Reachable gk b)
    (h1 : make_value_node b v i1 d1 m1 = (.ok id1, b1))
    (h2 : make_value_node b1 v i2 d2 m2 = (.ok id2, b2)) :
    id1 = id2 ∧ b2 = b1 ∧ countValue b2.nodes v = 1 := by
  have hl1 : alookup v b1.value_map = some id1 :=
    make_value_node_ok_lookup b b1 v i1 d1 m1 id1 h1
  have h2x : make_value_node b1 v i2 d2 m2 = (.ok id1, b1) := by
    simp [make_value_node, hl1]
  rw [h2x] at h2
  obtain ⟨he, hb⟩ := Prod.mk.injEq .. ▸ h2
  obtain rfl : id1 = id2 := by injection he
  subst hb
  have hvmc : ValueMapConsistent b := reachable_valueMapConsistent gk b hreach
  have hb1 : b1 = applyOp gk b (Op.valueOp v i1 d1 m1) := by
    show b1 = (make_value_node b v i1 d1 m1).2
    rw [h1]
  have hvmc1 : ValueMapConsistent b1 := by
    rw [hb1]
    exact applyOp_valueMapConsistent gk b _ hvmc
  have hc := hvmc1 v
  rw [hl1] at hc
  exact ⟨rfl, rfl, hc⟩

/-- C3 witness: creating value 5 on the empty builder then re-creating
it with different info, metadata and (unregistered) domain arguments
yields id 0 both times and a single value-5 node. -/
theorem value_node_dedup_idempotent_witness :
    (0 : Nat) = 0 ∧ eB1 = eB1 ∧ countValue eB1.nodes 5 = 1 :=
  value_node_dedup_idempotent gkNat eB0 eB1 eB1 5 none (some "x") [] [7] none
    (some 9) 0 0 ⟨[], rfl⟩ (by decide) (by decide)

/-- C6 (amended): every edge created by a successful
`make_any_aggregator` call has Strong strength and points into the new
aggregator, whatever the caller passed. -/
theorem any_aggregator_created_edges_strong (b b2 : Builder V NV M D)
    (ms : List (Nat × Relation)) (info : Option String) (md : Option M)
    (doms : List D) (agg : Nat)
    (h : make_any_aggregator b ms info md doms = (.ok agg, b2)) :
    ∀ (eid : Nat) (e : Edge), b.edges.length ≤ eid → b2.edges[eid]? = some e →
      e.strength = .strong ∧ e.succ = agg := by
  obtain ⟨-, -, t, ht, hP⟩ := make_any_ok_shape b b2 ms info md doms agg h
  intro eid e hge hsome
  rw [ht, List.getElem?_append_right hge] at hsome
  exact hP e (mem_of_getElem?_some hsome)

/-- C6 witness: the first edge created by the ANY aggregator over the
two value nodes of `eB4` is Strong into node 2. -/
theorem any_aggregator_created_edges_strong_witness :
    ({ strength := .strong, relation := .positive, pred := 0, succ := 2 } : Edge).strength
      = .strong ∧
    ({ strength := .strong, relation := .positive, pred := 0, succ := 2 } : Edge).succ
      = 2 :=
  any_aggregator_created_edges_strong eB4 eAny3 [(0, .positive), (1, .negative)]
    none none [] 2 (by decide) 0
    { strength := .strong, relation := .positive, pred := 0, succ := 2 }
    (by decide) (by decide)

/-- C6 counterexample: in the built graph of `eB3`, node 1 is an
AnyAggregator whose (only) incoming edge, created by a direct
`make_edge` call, is Weak — so not every incoming edge of an
AnyAggregator in a built graph is Strong. -/
theorem any_aggregator_weak_incoming_counterexample :
    ((build eB3).nodes[1]?).map Node.nodeType = some .anyAggregator ∧
    (build eB3).edges[0]? =
      some { strength := .weak, relation := .positive, pred := 0, succ := 1 } ∧
    ((build eB3).nodes[1]?).map Node.preds = some [0] := by
  decide

/-- C4 counterexample: with value 5 already deduplicated in `eB1`,
`make_value_node` with the unregistered domain identifier 7 succeeds
with the existing id instead of failing with `DomainNotFound`. -/
theorem value_node_domain_after_dedup_counterexample :
    alookup 7 eB1.domain_identifier_map = none ∧
    make_value_node eB1 5 none [7] none = (.ok 0, eB1) := by
  decide

/-- C4 (amended): the value-dedup lookup happens before domain
resolution: a dedup hit returns the existing id whatever the domain
identifiers are, and `DomainNotFound` is returned (without mutation)
only when the value is absent and some identifier is unregistered. -/
theorem value_node_domain_check_after_dedup (b : Builder V NV M D) (v : NV)
    (info : Option String) (ids : List D) (md : Option M) (id : Nat) :
    (alookup v b.value_map = some id → make_value_node b v info ids md = (.ok id, b)) ∧
    (alookup v b.value_map = none →
      (∃ i ∈ ids, alookup i b.domain_identifier_map = none) →
      make_value_node b v info ids md = (.error .domainNotFound, b)) := by
  constructor
  · intro hl
    simp [make_value_node, hl]
  · intro hl hmiss
    simp [make_value_node, hl, resolveDomainIds_missing hmiss]

/-- C4 witness: a dedup hit with an unregistered identifier succeeds; a
fresh value with the same identifier fails with `DomainNotFound`. -/
theorem value_node_domain_check_after_dedup_witness :
    make_value_node eB1 5 none [7] none = (.ok 0, eB1) ∧
    make_value_node eB1 6 none [7] none = (.error .domainNotFound, eB1) :=
  ⟨(value_node_domain_check_after_dedup eB1 5 none [7] none 0).1 (by decide),
   (value_node_domain_check_after_dedup eB1 6 none [7] none 0).2 (by decide)
     ⟨7, by decide, by decide⟩⟩

/-- C5 (amended): `make_in_aggregator` fails with `NoInAggregatorValues`
exactly when `values` is empty, fails with the malformed-graph error on
mismatched comparison keys, and otherwise — provided the domain
identifiers all resolve — succeeds, storing the deduplicated value set
on a node with no incoming or outgoing edges.  Failures never mutate
the builder. -/
theorem in_aggregator_errors (gk : V → K) (b : Builder V NV M D) (vs : List V)
    (info : Option String) (md : Option M) (doms : List D) :
    (make_in_aggregator gk b [] info md doms = (.error .noInAggregatorValues, b)) ∧
    (vs ≠ [] →
      (make_in_aggregator gk b vs info md doms).1 ≠ .error .noInAggregatorValues) ∧
    ((∃ a ∈ vs, ∃ c ∈ vs, gk a ≠ gk c) →
      make_in_aggregator gk b vs info md doms =
        (.error (.malformedGraph "Values for In aggregator not of same key"), b)) ∧
    (∀ dids, vs ≠ [] → (∀ a ∈ vs, ∀ c ∈ vs, gk a = gk c) →
      resolveDomainIds b.domain_identifier_map doms = .ok dids →
      ∃ node : Node V NV,
        make_in_aggregator gk b vs info md doms = (.ok b.nodes.length,
          { b with
              nodes := b.nodes ++ [node],
              node_info := b.node_info ++ [info],
              node_metadata := b.node_metadata ++ [md] }) ∧
        node.nodeType = .inAggregator vs.dedup ∧
        (∀ x, x ∈ vs.dedup ↔ x ∈ vs) ∧ node.preds = [] ∧ node.succs = []) := by
  refine ⟨by simp [make_in_aggregator], ?_, ?_, ?_⟩
  · intro hne
    cases vs with
    | nil => exact absurd rfl hne
    | cons v0 rest =>
        by_cases hall : (v0 :: rest).all (fun val => gk val = gk v0) = true
        · cases hr : resolveDomainIds b.domain_identifier_map doms with
          | error e =>
              have he := resolveDomainIds_error_eq hr
              subst he
              simp [make_in_aggregator, hall, hr]
          | ok dids => simp [make_in_aggregator, hall, hr]
        · simp [make_in_aggregator, hall]
  · rintro ⟨a, ha, c, hc, hne⟩
    cases vs with
    | nil => simp at ha
    | cons v0 rest =>
        have hallf : ¬((v0 :: rest).all (fun val => gk val = gk v0) = true) := by
          rw [List.all_eq_true]
          intro hothers
          have g1 := of_decide_eq_true (hothers a ha)
          have g2 := of_decide_eq_true (hothers c hc)
          exact hne (g1.trans g2.symm)
        simp [make_in_aggregator, hallf]
  · intro dids hne hkeys hr
    cases vs with
    | nil => exact absurd rfl hne
    | cons v0 rest =>
        have hall : (v0 :: rest).all (fun val => gk val = gk v0) = true := by
          rw [List.all_eq_true]
          intro x hx
          exact decide_eq_true (hkeys x hx v0 (List.mem_cons_self v0 rest))
        refine ⟨Node.new (.inAggregator (v0 :: rest).dedup) dids, ?_, rfl,
          fun x => List.mem_dedup, rfl, rfl⟩
        simp [make_in_aggregator, hall, hr]

/-- C5 witness: the empty list is rejected, `[1]` is not rejected for
emptiness, `[1, 2]` is rejected for mismatched keys, and `[4]` succeeds
with an edge-free IN-aggregator node. -/
theorem in_aggregator_errors_witness :
    make_in_aggregator gkNat eB0 [] none none [] =
      (.error .noInAggregatorValues, eB0) ∧
    (make_in_aggregator gkNat eB0 [1] none none []).1 ≠
      .error .noInAggregatorValues ∧
    make_in_aggregator gkNat eB0 [1, 2] none none [] =
      (.error (.malformedGraph "Values for In aggregator not of same key"), eB0) ∧
    ∃ node : Node Nat Nat,
      make_in_aggregator gkNat eB0 [4] none none [] = (.ok eB0.nodes.length,
        { eB0 with
            nodes := eB0.nodes ++ [node],
            node_info := eB0.node_info ++ [none],
            node_metadata := eB0.node_metadata ++ [none] }) ∧
      node.nodeType = .inAggregator ([4] : List Nat).dedup ∧
      (∀ x, x ∈ ([4] : List Nat).dedup ↔ x ∈ [4]) ∧
      node.preds = [] ∧ node.succs = [] :=
  ⟨(in_aggregator_errors gkNat eB0 [] none none []).1,
   (in_aggregator_errors gkNat eB0 [1] none none []).2.1 (by decide),
   (in_aggregator_errors gkNat eB0 [1, 2] none none []).2.2.1
     ⟨1, by decide, 2, by decide, by decide⟩,
   (in_aggregator_errors gkNat eB0 [4] none none []).2.2.2 [] (by decide)
     (by decide) (by decide)⟩

/-- C5 counterexample: a non-empty, key-uniform value list with an
unregistered domain identifier does not succeed — it fails with
`DomainNotFound`, which the claim's case split does not allow. -/
theorem in_aggregator_domain_error_counterexample :
    (∀ a ∈ ([1] : List Nat), ∀ c ∈ ([1] : List Nat), gkNat a = gkNat c) ∧
    make_in_aggregator gkNat eB0 [1] none none [7] =
      (.error .domainNotFound, eB0) := by
  constructor
  · decide
  · decide

/-- C1 (amended): `make_value_node`, `make_edge` and
`make_in_aggregator` leave the builder exactly as it was on any error,
and `make_all_aggregator`/`make_any_aggregator` leave it unchanged when
they fail during member validation or domain resolution (their
edge-creation phase, which runs after the aggregator node is pushed, is
the exception — see the counterexample). -/
theorem construction_errors_before_mutation
    (gk : V → K) (b : Builder V NV M D) (v : NV) (info : Option String)
    (ids : List D) (md : Option M) (e : GraphError) (p q : Nat) (st : Strength)
    (rel : Relation) (vs : List V) (doms : List D)
    (msAll : List (Nat × Relation × Strength)) (msAny : List (Nat × Relation)) :
    ((make_value_node b v info ids md).1 = .error e →
      (make_value_node b v info ids md).2 = b) ∧
    ((make_edge b p q st rel).1 = .error e → (make_edge b p q st rel).2 = b) ∧
    ((make_in_aggregator gk b vs info md doms).1 = .error e →
      (make_in_aggregator gk b vs info md doms).2 = b) ∧
    (validateNodes b (msAll.map (fun t => t.1)) = .error e →
      make_all_aggregator b msAll info md doms = (.error e, b)) ∧
    (∀ u, validateNodes b (msAll.map (fun t => t.1)) = .ok u →
      resolveDomainIds b.domain_identifier_map doms = .error e →
      make_all_aggregator b msAll info md doms = (.error e, b)) ∧
    (validateNodes b (msAny.map (fun t => t.1)) = .error e →
      make_any_aggregator b msAny info md doms = (.error e, b)) ∧
    (∀ u, validateNodes b (msAny.map (fun t => t.1)) = .ok u →
      resolveDomainIds b.domain_identifier_map doms = .error e →
      make_any_aggregator b msAny info md doms = (.error e, b)) :=
  ⟨make_value_node_error b v info ids md e,
   make_edge_error b p q st rel e,
   make_in_aggregator_error gk b vs info md doms e,
   (make_all_validation_error b msAll info md doms e).1,
   (make_all_validation_error b msAll info md doms e).2,
   (make_any_validation_error b msAny info md doms e).1,
   (make_any_validation_error b msAny info md doms e).2⟩

/-- C1 witness: concrete failing calls of every kind leave their builder
untouched. -/
theorem construction_errors_before_mutation_witness :
    (make_value_node eB1 6 none [7] none).2 = eB1 ∧
    (make_edge eB0 0 1 .strong .positive).2 = eB0 ∧
    (make_in_aggregator gkNat eB0 ([] : List Nat) none none []).2 = eB0 ∧
    make_all_aggregator eB0 [(5, .positive, .strong)] none none ([7] : List Nat) =
      (.error .nodeNotFound, eB0) ∧
    make_all_aggregator eB0 ([] : List (Nat × Relation × Strength)) none none [7] =
      (.error .domainNotFound, eB0) ∧
    make_any_aggregator eB0 [(5, .positive)] none none ([7] : List Nat) =
      (.error .nodeNotFound, eB0) ∧
    make_any_aggregator eB0 ([] : List (Nat × Relation)) none none [7] =
      (.error .domainNotFound, eB0) := by
  refine ⟨?_, ?_, ?_, ?_, ?_, ?_, ?_⟩
  · exact (construction_errors_before_mutation gkNat eB1 6 none [7] none
      .domainNotFound 0 1 .strong .positive [] [] [] []).1 (by decide)
  · exact (construction_errors_before_mutation gkNat eB0 6 none [] none
      .nodeNotFound 0 1 .strong .positive [] [] [] []).2.1 (by decide)
  · exact (construction_errors_before_mutation gkNat eB0 6 none [] none
      .noInAggregatorValues 0 1 .strong .positive [] [] [] []).2.2.1 (by decide)
  · exact (construction_errors_before_mutation gkNat eB0 6 none [] none
      .nodeNotFound 0 1 .strong .positive [] [7] [(5, .positive, .strong)]
      []).2.2.2.1 (by decide)
  · exact (construction_errors_before_mutation gkNat eB0 6 none [] none
      .domainNotFound 0 1 .strong .positive [] [7] [] []).2.2.2.2.1 ()
      (by decide) (by decide)
  · exact (construction_errors_before_mutation gkNat eB0 6 none [] none
      .nodeNotFound 0 1 .strong .positive [] [7] [] [(5, .positive)]).2.2.2.2.2.1
      (by decide)
  · exact (construction_errors_before_mutation gkNat eB0 6 none [] none
      .domainNotFound 0 1 .strong .positive [] [7] [] []).2.2.2.2.2.2 ()
      (by decide) (by decide)

/-- C1 counterexample: `make_all_aggregator` over the same member listed
twice with different relations fails with `ConflictingEdgeCreated`, yet
the already-pushed aggregator node remains — the builder is not in its
prior state. -/
theorem all_aggregator_leftover_state_counterexample :
    eAllConflict.1 = .error .conflictingEdgeCreated ∧
    eAllConflict.2.nodes.length = eB1.nodes.length + 1 ∧
    eAllConflict.2 ≠ eB1 := by
  decide

end Claims

end ConstraintGraph
